import Mathlib

/-!
Verification of the 123subscribe cloud-share monitor.

This file gives a shallow embedding, in Lean, of the pure logic of the
monitor's components and proves properties about them:

* `FileComparator.get_files_to_sync` (src/sync/file_comparator.py) — the
  change detector that diffs a freshly listed share against the last
  known file list;
* `FileSyncer.sync_file` (src/sync/file_syncer.py) — the transfer
  orchestrator with its retry loop, modelled over an oracle giving the
  outcome of each external save call;
* `Cloud123Monitor._monitor_share_link` (src/main.py) — the per-share
  tick: secret resolution, share-key derivation, the per-file commit
  loop and the no-delta state update;
* `TaskScheduler.update_task_interval` / `remove_job`
  (src/scheduler/task_scheduler.py);
* `TaskMonitor.complete_task` / `get_recent_history`
  (src/scheduler/monitor.py).

Conventions of the embedding: Python dict fields that may be missing are
`Option`; `d.get(k, default)` is `Option.getD`; Python truthiness of an
optional string (`None` and `""` are falsy) is the `truthy` predicate
below; wall-clock timestamps are abstract `Nat` instants.
-/

/-- Python truthiness of an `Optional[str]`: `None` and the empty string
are falsy, every other string is truthy. -/
def truthy : Option String → Bool
  | none => false
  | some s => !s.isEmpty

/-! ### File descriptors

A `FileInfo` models the per-file dict built by
`ShareHandler.get_file_list` and stored in the monitor state: the fields
the diffing and commit logic reads.  `type` is the cloud's numeric file
type where `1` marks a directory; `md5` is the content fingerprint
(the listing copies `etag` into `md5`); `synced_at` is stamped by the
monitor at commit time and is absent on freshly listed files. -/

structure FileInfo where
  file_id : String
  name : String
  path : Option String
  md5 : Option String
  type : Option Nat
  synced_at : Option Nat
deriving DecidableEq, Repr

/-- Effective path of a file dict: `file_info.get('path', '')`. -/
def FileInfo.pathD (f : FileInfo) : String := f.path.getD ""

/-- Effective fingerprint of a file dict: `file_info.get('md5', '')`. -/
def FileInfo.md5D (f : FileInfo) : String := f.md5.getD ""

/-- Whether the entry is a directory: the comparator skips entries with
`source_file.get('type') == 1`. -/
def FileInfo.isDir (f : FileInfo) : Bool := f.type == some 1

/-! ### FileComparator (src/sync/file_comparator.py) -/

/-- The dict comprehension
`{file_info.get('path', ''): file_info for file_info in target_files}`:
a later entry with the same key overwrites an earlier one, so lookup
returns the last entry of `target_files` carrying the path. -/
def target_file_map (target_files : List FileInfo) : String → Option FileInfo :=
  target_files.foldl (fun m f => fun p => if p = f.pathD then some f else m p)
    (fun _ => none)

/-- Body of one iteration of the `for source_file in source_files` loop of
`FileComparator.get_files_to_sync`: skip directories, include entries
whose path is absent from the target map or present with a different
fingerprint. -/
def files_to_sync_step (tmap : String → Option FileInfo)
    (acc : List FileInfo) (sf : FileInfo) : List FileInfo :=
  if sf.isDir then acc
  else
    match tmap sf.pathD with
    | none => acc ++ [sf]
    | some tf => if sf.md5D ≠ tf.md5D then acc ++ [sf] else acc

/-- `FileComparator.get_files_to_sync(source_files, target_files)`: build
the path-keyed map from `target_files`, then fold the inclusion step over
`source_files` in order. -/
def get_files_to_sync (source_files target_files : List FileInfo) : List FileInfo :=
  source_files.foldl (files_to_sync_step (target_file_map target_files)) []

/-- The inclusion criterion of the comparator, as a predicate on a single
source entry: the entry is not a directory, and its path is either absent
from the target map or mapped to an entry with a different fingerprint. -/
def needs_sync (tmap : String → Option FileInfo) (sf : FileInfo) : Bool :=
  !sf.isDir &&
    (match tmap sf.pathD with
     | none => true
     | some tf => decide (sf.md5D ≠ tf.md5D))

theorem files_to_sync_step_eq (tmap : String → Option FileInfo)
    (acc : List FileInfo) (sf : FileInfo) :
    files_to_sync_step tmap acc sf =
      if needs_sync tmap sf then acc ++ [sf] else acc := by
  unfold files_to_sync_step needs_sync
  cases h : sf.isDir with
  | true => simp [h]
  | false =>
    cases hm : tmap sf.pathD with
    | none => simp [h, hm]
    | some tf =>
      by_cases heq : sf.md5D = tf.md5D
      · simp [h, hm, heq]
      · simp [h, hm, heq]

theorem foldl_step_eq_filter (tmap : String → Option FileInfo) :
    ∀ (l acc : List FileInfo),
      l.foldl (files_to_sync_step tmap) acc = acc ++ l.filter (needs_sync tmap)
  | [], acc => by simp
  | sf :: rest, acc => by
    rw [List.foldl_cons, foldl_step_eq_filter tmap rest, files_to_sync_step_eq]
    by_cases h : needs_sync tmap sf
    · simp [List.filter_cons, h]
    · simp [List.filter_cons, h]

/-- C1: `filesToSync` returns exactly the source entries that are of file
type (directory entries, `type == 1`, are never returned) and whose path
is absent from the path-keyed map built from the known list or present
with a different fingerprint (missing fingerprints read as `""`), in the
same relative order as in the source list: it is the order-preserving
filter of the source list by the inclusion criterion, and no returned
entry is a directory. -/
theorem get_files_to_sync_spec (source_files target_files : List FileInfo) :
    get_files_to_sync source_files target_files =
      source_files.filter (needs_sync (target_file_map target_files)) ∧
    ∀ f ∈ get_files_to_sync source_files target_files, ¬(f.type = some 1) := by
  have hfilter :
      get_files_to_sync source_files target_files =
        source_files.filter (needs_sync (target_file_map target_files)) := by
    unfold get_files_to_sync
    rw [foldl_step_eq_filter]
    simp
  refine ⟨hfilter, ?_⟩
  intro f hf
  rw [hfilter] at hf
  have hmem := List.of_mem_filter hf
  unfold needs_sync at hmem
  intro htype
  have : f.isDir = true := by simp [FileInfo.isDir, htype]
  simp [this] at hmem

/-! ### Idempotence of the comparator -/

theorem target_file_map_foldl (l : List FileInfo)
    (m : String → Option FileInfo) (p : String) :
    l.foldl (fun m f => fun q => if q = f.pathD then some f else m q) m p =
      match l.reverse.find? (fun f => p == f.pathD) with
      | some f => some f
      | none => m p := by
  induction l generalizing m with
  | nil => simp
  | cons f rest ih =>
    rw [List.foldl_cons, ih]
    simp only [List.reverse_cons, List.find?_append]
    cases hr : rest.reverse.find? (fun f => p == f.pathD) with
    | some g => simp [Option.or]
    | none =>
      simp only [Option.or, List.find?]
      by_cases hp : p = f.pathD
      · simp [hp]
      · have : (p == f.pathD) = false := by simp [hp]
        simp [this, hp]

theorem target_file_map_eq_find (l : List FileInfo) (p : String) :
    target_file_map l p =
      match l.reverse.find? (fun f => p == f.pathD) with
      | some f => some f
      | none => none := by
  unfold target_file_map
  rw [target_file_map_foldl]

theorem find?_of_pairwise_ne (l : List FileInfo) (f : FileInfo)
    (hf : f ∈ l) (hd : l.Pairwise fun a b => a.pathD ≠ b.pathD) :
    l.find? (fun g => f.pathD == g.pathD) = some f := by
  induction l with
  | nil => cases hf
  | cons g rest ih =>
    rcases List.pairwise_cons.mp hd with ⟨hg, hrest⟩
    rcases List.mem_cons.mp hf with hfg | hfr
    · subst hfg
      simp [List.find?]
    · have hne : g.pathD ≠ f.pathD := fun h => hg f hfr h
      have hb : (f.pathD == g.pathD) = false := by
        simp only [beq_eq_false_iff_ne, ne_eq]
        exact fun h => hne h.symm
      simp only [List.find?, hb]
      exact ih hfr hrest

theorem target_file_map_self (l : List FileInfo) (f : FileInfo)
    (hf : f ∈ l) (hd : l.Pairwise fun a b => a.pathD ≠ b.pathD) :
    target_file_map l f.pathD = some f := by
  rw [target_file_map_eq_find]
  have hrev : l.reverse.find? (fun g => f.pathD == g.pathD) = some f := by
    apply find?_of_pairwise_ne
    · exact List.mem_reverse.mpr hf
    · exact List.pairwise_reverse.mpr (hd.imp fun h => Ne.symm h)
  rw [hrev]

theorem get_files_to_sync_self (l : List FileInfo)
    (hd : l.Pairwise fun a b => a.pathD ≠ b.pathD) :
    get_files_to_sync l l = [] := by
  unfold get_files_to_sync
  rw [foldl_step_eq_filter, List.nil_append, List.filter_eq_nil_iff]
  intro f hf
  unfold needs_sync
  cases hdir : f.isDir with
  | true => simp [hdir]
  | false =>
    have hmap := target_file_map_self l f hf hd
    simp [hdir, hmap]

/-- C8 counterexample: two file-type entries sharing a path but carrying
different fingerprints. -/
def dupPathA : FileInfo :=
  { file_id := "1", name := "a", path := some "p", md5 := some "x",
    type := some 0, synced_at := none }

/-- C8 counterexample: the second entry on the duplicated path. -/
def dupPathB : FileInfo :=
  { file_id := "2", name := "a", path := some "p", md5 := some "y",
    type := some 0, synced_at := none }

/-- C8 is false as stated: with a source list containing two file entries
on the same path with different fingerprints, the comparator's own output
(against an empty known list) fed back as both source and known list is
not empty — the path-keyed map keeps only the last entry per path, so the
first entry's fingerprint still differs. -/
theorem get_files_to_sync_not_idempotent :
    get_files_to_sync (get_files_to_sync [dupPathA, dupPathB] [])
      (get_files_to_sync [dupPathA, dupPathB] []) ≠ [] := by
  decide

/-- C8 amended: whenever the comparator's output has pairwise distinct
effective paths (in particular whenever the source list has no repeated
paths among its file entries), feeding that output back as both the
source list and the known list yields the empty list. -/
theorem get_files_to_sync_idempotent (src tgt : List FileInfo)
    (h : (get_files_to_sync src tgt).Pairwise fun a b => a.pathD ≠ b.pathD) :
    get_files_to_sync (get_files_to_sync src tgt) (get_files_to_sync src tgt) = [] :=
  get_files_to_sync_self (get_files_to_sync src tgt) h

/-- Witness for the amended C8 at a concrete input. -/
theorem get_files_to_sync_idempotent_witness :
    get_files_to_sync (get_files_to_sync [dupPathA] [])
      (get_files_to_sync [dupPathA] []) = [] :=
  get_files_to_sync_idempotent [dupPathA] [] (by decide)

/-! ### FileSyncer (src/sync/file_syncer.py)

`FileSyncer.sync_file` runs a `for attempt in range(retries + 1)` loop;
each iteration makes exactly one external save call.  The outcome of the
call at a given attempt index is abstracted by an oracle
`outcomes : Nat → SaveOutcome`; `throws` models a raised exception,
`returns c` a returned result object whose status code is `c`
(`returns none` models a falsy result object, and a result dict missing
its `code` key behaves like a non-zero code).  The attempt succeeds
exactly on `returns (some 0)`.  The `time.sleep((attempt + 1) * 2)`
backoff sits inside the `except` block, so it runs only after an attempt
that raised, and only when `attempt < retries`. -/

inductive SaveOutcome
  | throws
  | returns (code : Option Int)
deriving DecidableEq, Repr

/-- Whether an attempt outcome is a raised exception. -/
def SaveOutcome.is_throw : SaveOutcome → Bool
  | SaveOutcome.throws => true
  | SaveOutcome.returns _ => false

/-- Which external save variant an attempt invokes:
`share_handler.save_file_to_cloud` carrying the full path, or
`api_client.save_shared_file` with an optional flat filename. -/
inductive SaveCall
  | preserve_path_call (file_path : String)
  | flat_call (filename : Option String)
deriving DecidableEq, Repr

/-- Filename extraction of the flat branch:
`file_path.split('/')[-1] if '/' in file_path else file_path`. -/
def extract_filename (file_path : String) : String :=
  if file_path.contains '/' then (file_path.splitOn "/").getLastD ""
  else file_path

/-- The save variant chosen by `sync_file`: the path-preserving call when
`preserve_path and file_path` is truthy, otherwise the flat call whose
filename is extracted from `file_path` when that is truthy and `None`
otherwise. -/
def save_call (preserve_path : Bool) (file_path : Option String) : SaveCall :=
  if preserve_path && truthy file_path then
    SaveCall.preserve_path_call (file_path.getD "")
  else
    SaveCall.flat_call
      (if truthy file_path then some (extract_filename (file_path.getD ""))
       else none)

/-- Terminal status of a `sync_file` run: the early `ValueError`, a
returned success, or the terminal exception after all attempts failed. -/
inductive SyncStatus
  | validation_error
  | success
  | failed
deriving DecidableEq, Repr

/-- Observable trace of a `sync_file` run: the external save calls made
(one per attempt, in order), the injected sleep durations (seconds, in
order), and the terminal status. -/
structure SyncTrace where
  calls : List SaveCall
  waits : List Nat
  status : SyncStatus
deriving DecidableEq, Repr

/-- The retry loop of `sync_file`, recursing on the number of remaining
iterations (`retries + 1 - attempt` at entry): a `returns (some 0)`
outcome returns success; any other returned result falls through with no
sleep; a raised exception sleeps `(attempt + 1) * 2` seconds when
`attempt < retries`; exhausting the loop raises the terminal error. -/
def sync_loop (outcomes : Nat → SaveOutcome) (call : SaveCall) (retries : Nat) :
    Nat → Nat → SyncTrace
  | 0, _ => { calls := [], waits := [], status := SyncStatus.failed }
  | n + 1, attempt =>
    match outcomes attempt with
    | SaveOutcome.returns c =>
      if c = some 0 then
        { calls := [call], waits := [], status := SyncStatus.success }
      else
        let rest := sync_loop outcomes call retries n (attempt + 1)
        { calls := call :: rest.calls, waits := rest.waits,
          status := rest.status }
    | SaveOutcome.throws =>
      if attempt < retries then
        let rest := sync_loop outcomes call retries n (attempt + 1)
        { calls := call :: rest.calls,
          waits := (attempt + 1) * 2 :: rest.waits, status := rest.status }
      else
        let rest := sync_loop outcomes call retries n (attempt + 1)
        { calls := call :: rest.calls, waits := rest.waits,
          status := rest.status }

/-- `FileSyncer.sync_file`: validate `file_id` and `share_id`
(`if not file_id or not share_id: raise ValueError`), then run the
attempt loop `for attempt in range(retries + 1)`. -/
def sync_file (share_id file_id : String) (retries : Nat)
    (file_path : Option String) (preserve_path : Bool)
    (outcomes : Nat → SaveOutcome) : SyncTrace :=
  if file_id.isEmpty || share_id.isEmpty then
    { calls := [], waits := [], status := SyncStatus.validation_error }
  else
    sync_loop outcomes (save_call preserve_path file_path) retries
      (retries + 1) 0

theorem sync_loop_calls (outcomes : Nat → SaveOutcome) (call : SaveCall)
    (retries : Nat) :
    ∀ n attempt,
      (sync_loop outcomes call retries n attempt).calls.length ≤ n ∧
      (sync_loop outcomes call retries n attempt).calls =
        List.replicate
          (sync_loop outcomes call retries n attempt).calls.length call := by
  intro n
  induction n with
  | zero => intro attempt; simp [sync_loop]
  | succ n ih =>
    intro attempt
    rcases ih (attempt + 1) with ⟨ihlen, ihrep⟩
    cases h : outcomes attempt with
    | returns c =>
      by_cases hc : c = some 0
      · simp [sync_loop, h, hc]
      · simp only [sync_loop, h, if_neg hc]
        refine ⟨by simpa using Nat.succ_le_succ ihlen, ?_⟩
        simp only [List.length_cons, List.replicate_succ, List.cons.injEq,
          true_and]
        exact ihrep
    | throws =>
      by_cases ha : attempt < retries
      · simp only [sync_loop, h, if_pos ha]
        refine ⟨by simpa using Nat.succ_le_succ ihlen, ?_⟩
        simp only [List.length_cons, List.replicate_succ, List.cons.injEq,
          true_and]
        exact ihrep
      · simp only [sync_loop, h, if_neg ha]
        refine ⟨by simpa using Nat.succ_le_succ ihlen, ?_⟩
        simp only [List.length_cons, List.replicate_succ, List.cons.injEq,
          true_and]
        exact ihrep

theorem sync_loop_len_pos (outcomes : Nat → SaveOutcome) (call : SaveCall)
    (retries : Nat) :
    ∀ n attempt, 0 < n →
      0 < (sync_loop outcomes call retries n attempt).calls.length := by
  intro n attempt hn
  cases n with
  | zero => exact absurd hn (by simp)
  | succ n =>
    cases h : outcomes attempt with
    | returns c =>
      by_cases hc : c = some 0
      · simp [sync_loop, h, hc]
      · simp [sync_loop, h, hc]
    | throws =>
      by_cases ha : attempt < retries
      · simp [sync_loop, h, ha]
      · simp [sync_loop, h, ha]

theorem sync_loop_waits (outcomes : Nat → SaveOutcome) (call : SaveCall)
    (retries : Nat) :
    ∀ n attempt, n + attempt = retries + 1 →
      (sync_loop outcomes call retries n attempt).waits =
        ((List.range' attempt
            ((sync_loop outcomes call retries n attempt).calls.length - 1)).filter
          (fun i => (outcomes i).is_throw)).map (fun i => (i + 1) * 2) := by
  intro n
  induction n with
  | zero => intro attempt _; simp [sync_loop]
  | succ n ih =>
    intro attempt hinv
    have hinv' : n + (attempt + 1) = retries + 1 := by omega
    have ihw := ih (attempt + 1) hinv'
    cases h : outcomes attempt with
    | returns c =>
      by_cases hc : c = some 0
      · simp [sync_loop, h, hc]
      · simp only [sync_loop, h, if_neg hc]
        cases hk : (sync_loop outcomes call retries n (attempt + 1)).calls.length with
        | zero =>
          have hn : n = 0 := by
            by_contra hne
            exact absurd hk
              (Nat.ne_of_gt (sync_loop_len_pos outcomes call retries n
                (attempt + 1) (Nat.pos_of_ne_zero hne)))
          subst hn
          simp [sync_loop]
        | succ k =>
          simp only [List.length_cons, hk, Nat.add_sub_cancel,
            List.range'_succ]
          rw [ihw, hk]
          simp only [Nat.add_sub_cancel, List.filter_cons]
          have : (outcomes attempt).is_throw = false := by
            simp [h, SaveOutcome.is_throw]
          simp [this]
    | throws =>
      by_cases ha : attempt < retries
      · have hn : 0 < n := by omega
        have hk := sync_loop_len_pos outcomes call retries n (attempt + 1) hn
        simp only [sync_loop, h, if_pos ha]
        cases hlen : (sync_loop outcomes call retries n (attempt + 1)).calls.length with
        | zero => rw [hlen] at hk; exact absurd hk (by simp)
        | succ k =>
          simp only [List.length_cons, hlen, Nat.add_sub_cancel,
            List.range'_succ]
          rw [ihw, hlen]
          simp only [Nat.add_sub_cancel, List.filter_cons]
          have : (outcomes attempt).is_throw = true := by
            simp [h, SaveOutcome.is_throw]
          simp [this]
      · have hn : n = 0 := by omega
        subst hn
        simp [sync_loop, h, ha]

theorem sync_loop_all_fail (outcomes : Nat → SaveOutcome) (call : SaveCall)
    (retries : Nat) :
    ∀ n attempt,
      (∀ j < n, outcomes (attempt + j) ≠ SaveOutcome.returns (some 0)) →
      (sync_loop outcomes call retries n attempt).status = SyncStatus.failed ∧
      (sync_loop outcomes call retries n attempt).calls.length = n := by
  intro n
  induction n with
  | zero => intro attempt _; simp [sync_loop]
  | succ n ih =>
    intro attempt hfail
    have h0 : outcomes attempt ≠ SaveOutcome.returns (some 0) := by
      have := hfail 0 (Nat.succ_pos n)
      simpa using this
    have hrest :
        ∀ j < n, outcomes (attempt + 1 + j) ≠ SaveOutcome.returns (some 0) := by
      intro j hj
      have := hfail (j + 1) (by omega)
      simpa [Nat.add_assoc, Nat.add_comm 1 j] using this
    rcases ih (attempt + 1) hrest with ⟨ihs, ihl⟩
    cases h : outcomes attempt with
    | returns c =>
      have hc : ¬c = some 0 := fun hcc => h0 (by rw [h, hcc])
      simp [sync_loop, h, hc, ihs, ihl]
    | throws =>
      by_cases ha : attempt < retries
      · simp [sync_loop, h, ha, ihs, ihl]
      · simp [sync_loop, h, ha, ihs, ihl]

theorem sync_loop_first_ok (outcomes : Nat → SaveOutcome) (call : SaveCall)
    (retries : Nat) :
    ∀ k n attempt, k < n →
      (∀ j < k, outcomes (attempt + j) ≠ SaveOutcome.returns (some 0)) →
      outcomes (attempt + k) = SaveOutcome.returns (some 0) →
      (sync_loop outcomes call retries n attempt).status = SyncStatus.success ∧
      (sync_loop outcomes call retries n attempt).calls.length = k + 1 := by
  intro k
  induction k with
  | zero =>
    intro n attempt hkn _ hok
    cases n with
    | zero => exact absurd hkn (by simp)
    | succ n =>
      have h : outcomes attempt = SaveOutcome.returns (some 0) := by
        simpa using hok
      simp [sync_loop, h]
  | succ k ih =>
    intro n attempt hkn hfail hok
    cases n with
    | zero => exact absurd hkn (by simp)
    | succ n =>
      have h0 : outcomes attempt ≠ SaveOutcome.returns (some 0) := by
        have := hfail 0 (Nat.succ_pos k)
        simpa using this
      have hfail' :
          ∀ j < k, outcomes (attempt + 1 + j) ≠ SaveOutcome.returns (some 0) := by
        intro j hj
        have := hfail (j + 1) (by omega)
        simpa [Nat.add_assoc, Nat.add_comm 1 j] using this
      have hok' : outcomes (attempt + 1 + k) = SaveOutcome.returns (some 0) := by
        have : attempt + 1 + k = attempt + (k + 1) := by omega
        rw [this]
        exact hok
      rcases ih n (attempt + 1) (by omega) hfail' hok' with ⟨ihs, ihl⟩
      cases h : outcomes attempt with
      | returns c =>
        have hc : ¬c = some 0 := fun hcc => h0 (by rw [h, hcc])
        simp [sync_loop, h, hc, ihs, ihl]
      | throws =>
        by_cases ha : attempt < retries
        · simp [sync_loop, h, ha, ihs, ihl]
        · simp [sync_loop, h, ha, ihs, ihl]

/-- C2 amended: with non-empty identifiers, `sync_file` makes at most
`retries + 1` attempts, each attempt being exactly one external save call
of the fixed variant; a failed attempt is a non-ok status result or a
thrown error, but a backoff wait of `(attemptNumber) * 2` seconds is
injected only after a thrown-error failed attempt that is not the final
attempt — a non-ok status result retries immediately with no wait; if
every attempt fails the run fails terminally after exactly `retries + 1`
attempts, and if the first success happens at attempt index `k ≤ retries`
the run succeeds after exactly `k + 1` attempts. -/
theorem sync_file_retry_spec (share_id file_id : String) (retries : Nat)
    (file_path : Option String) (preserve_path : Bool)
    (outcomes : Nat → SaveOutcome)
    (hs : share_id ≠ "") (hf : file_id ≠ "") :
    (sync_file share_id file_id retries file_path preserve_path
        outcomes).calls.length ≤ retries + 1 ∧
    (sync_file share_id file_id retries file_path preserve_path
        outcomes).calls =
      List.replicate
        (sync_file share_id file_id retries file_path preserve_path
          outcomes).calls.length (save_call preserve_path file_path) ∧
    (sync_file share_id file_id retries file_path preserve_path
        outcomes).waits =
      ((List.range
          ((sync_file share_id file_id retries file_path preserve_path
            outcomes).calls.length - 1)).filter
        (fun i => (outcomes i).is_throw)).map (fun i => (i + 1) * 2) ∧
    ((∀ j < retries + 1, outcomes j ≠ SaveOutcome.returns (some 0)) →
      (sync_file share_id file_id retries file_path preserve_path
          outcomes).status = SyncStatus.failed ∧
      (sync_file share_id file_id retries file_path preserve_path
          outcomes).calls.length = retries + 1) ∧
    (∀ k < retries + 1,
      (∀ j < k, outcomes j ≠ SaveOutcome.returns (some 0)) →
      outcomes k = SaveOutcome.returns (some 0) →
      (sync_file share_id file_id retries file_path preserve_path
          outcomes).status = SyncStatus.success ∧
      (sync_file share_id file_id retries file_path preserve_path
          outcomes).calls.length = k + 1) := by
  have hemp : ∀ s : String, s ≠ "" → s.isEmpty = false := by
    intro s h
    rw [Bool.eq_false_iff]
    intro hh
    exact h ((String.isEmpty_iff s).mp hh)
  have hcond : (file_id.isEmpty || share_id.isEmpty) = false := by
    rw [hemp _ hf, hemp _ hs]
    rfl
  simp only [sync_file, hcond, Bool.false_eq_true, if_false]
  refine ⟨(sync_loop_calls outcomes _ retries (retries + 1) 0).1,
    (sync_loop_calls outcomes _ retries (retries + 1) 0).2, ?_, ?_, ?_⟩
  · rw [List.range_eq_range']
    exact sync_loop_waits outcomes _ retries (retries + 1) 0 (by omega)
  · intro hall
    exact sync_loop_all_fail outcomes _ retries (retries + 1) 0
      (by intro j hj; simpa using hall j hj)
  · intro k hk hfa hok
    exact sync_loop_first_ok outcomes _ retries k (retries + 1) 0 hk
      (by intro j hj; simpa using hfa j hj) (by simpa using hok)

/-- Backend behaviour refuting C2 as stated: the first two attempts
return a non-ok status code, the third returns the ok code. -/
def status_fail_twice : Nat → SaveOutcome :=
  fun i => if i < 2 then SaveOutcome.returns (some 1)
           else SaveOutcome.returns (some 0)

/-- C2 counterexample: with `maxRetries = 2` and a backend that fails
twice by non-ok status and then succeeds, `sync_file` returns success
after 3 attempts but injects no wait at all — the backoff sleep sits in
the exception handler only, so status-code failures retry immediately,
contradicting the claimed wait between any two consecutive failed
attempts (and the claimed total delay of at least 2+4 seconds). -/
theorem sync_file_status_failure_no_backoff :
    (sync_file "s" "f" 2 none false status_fail_twice).status =
        SyncStatus.success ∧
    (sync_file "s" "f" 2 none false status_fail_twice).calls.length = 3 ∧
    (sync_file "s" "f" 2 none false status_fail_twice).waits = [] := by
  decide

/-- Backend behaviour for the C2 witness: the first two attempts throw,
the third returns the ok code. -/
def throw_fail_twice : Nat → SaveOutcome :=
  fun i => if i < 2 then SaveOutcome.throws
           else SaveOutcome.returns (some 0)

/-- Witness for the amended C2: a backend throwing twice then succeeding
under `maxRetries = 2` yields success after exactly 3 attempts with the
waits 2 and 4 seconds. -/
theorem sync_file_retry_spec_witness :
    (sync_file "s" "f" 2 none false throw_fail_twice).status =
        SyncStatus.success ∧
    (sync_file "s" "f" 2 none false throw_fail_twice).calls.length = 3 ∧
    (sync_file "s" "f" 2 none false throw_fail_twice).waits = [2, 4] := by
  have h := sync_file_retry_spec "s" "f" 2 none false throw_fail_twice
    (by decide) (by decide)
  rcases h with ⟨-, -, hw, -, hok⟩
  rcases hok 2 (by omega)
      (by intro j hj; interval_cases j <;> decide) (by decide) with ⟨hst, hlen⟩
  refine ⟨hst, hlen, ?_⟩
  rw [hw, hlen]
  decide

/-- C9: a call with an empty file identifier or an empty share reference
raises the validation error immediately: no external save call is made,
no retry attempt is consumed, and no backoff wait occurs. -/
theorem sync_file_validation_error (share_id file_id : String)
    (retries : Nat) (file_path : Option String) (preserve_path : Bool)
    (outcomes : Nat → SaveOutcome) (h : file_id = "" ∨ share_id = "") :
    sync_file share_id file_id retries file_path preserve_path outcomes =
      { calls := [], waits := [], status := SyncStatus.validation_error } := by
  unfold sync_file
  have he : String.isEmpty "" = true := rfl
  rcases h with h | h <;> subst h <;> simp [he]

/-- Witness for C9 at a concrete input. -/
theorem sync_file_validation_error_witness :
    sync_file "share" "" 3 none true (fun _ => SaveOutcome.throws) =
      { calls := [], waits := [], status := SyncStatus.validation_error } :=
  sync_file_validation_error "share" "" 3 none true
    (fun _ => SaveOutcome.throws) (Or.inl rfl)

theorem sync_file_calls_all_save_call (share_id file_id : String)
    (retries : Nat) (file_path : Option String) (preserve_path : Bool)
    (outcomes : Nat → SaveOutcome) :
    ∀ c ∈ (sync_file share_id file_id retries file_path preserve_path
        outcomes).calls, c = save_call preserve_path file_path := by
  intro c hcm
  unfold sync_file at hcm
  by_cases hcond : (file_id.isEmpty || share_id.isEmpty) = true
  · simp [hcond] at hcm
  · simp only [hcond, Bool.false_eq_true, if_false] at hcm
    rw [(sync_loop_calls outcomes _ retries (retries + 1) 0).2] at hcm
    exact List.eq_of_mem_replicate hcm

/-- C10: when `preservePath` is true but the file path is missing or
empty, every external save call of the run is the flat-filename variant
with no filename (the silent fallback); and the path-preserving variant
is invoked only when `preservePath` is true and the path is truthy, with
the path passed through. -/
theorem sync_file_preserve_path_fallback (share_id file_id : String)
    (retries : Nat) (file_path : Option String) (preserve_path : Bool)
    (outcomes : Nat → SaveOutcome) :
    (preserve_path = true → (file_path = none ∨ file_path = some "") →
      (sync_file share_id file_id retries file_path preserve_path
          outcomes).calls =
        List.replicate
          (sync_file share_id file_id retries file_path preserve_path
            outcomes).calls.length (SaveCall.flat_call none)) ∧
    (∀ p, SaveCall.preserve_path_call p ∈
        (sync_file share_id file_id retries file_path preserve_path
          outcomes).calls →
      preserve_path = true ∧ truthy file_path = true ∧
        p = file_path.getD "") := by
  constructor
  · intro hpp hfp
    subst hpp
    have hsc : save_call true file_path = SaveCall.flat_call none := by
      rcases hfp with h | h <;> subst h <;> rfl
    have hrep := sync_file_calls_all_save_call share_id file_id retries
      file_path true outcomes
    rw [hsc] at hrep
    exact List.eq_replicate_of_mem hrep
  · intro p hmem
    have hc := sync_file_calls_all_save_call share_id file_id retries
      file_path preserve_path outcomes _ hmem
    unfold save_call at hc
    by_cases hcond : (preserve_path && truthy file_path) = true
    · rcases Bool.and_eq_true_iff.mp hcond with ⟨h1, h2⟩
      rw [if_pos hcond] at hc
      exact ⟨h1, h2, (SaveCall.preserve_path_call.injEq _ _).mp hc⟩
    · rw [if_neg hcond] at hc
      exact absurd hc (by simp)

/-- Witness for C10: two attempts with `preservePath = true` and an
empty path both invoke the flat variant with no filename. -/
theorem sync_file_preserve_path_fallback_witness :
    (sync_file "s" "f" 1 (some "") true (fun _ => SaveOutcome.throws)).calls =
      [SaveCall.flat_call none, SaveCall.flat_call none] := by
  have h := (sync_file_preserve_path_fallback "s" "f" 1 (some "") true
    (fun _ => SaveOutcome.throws)).1 rfl (Or.inr rfl)
  rw [h]
  rfl

/-! ### Cloud123Monitor (src/main.py)

`_monitor_share_link` parses the share address, resolves the secret,
derives the share key, lists the share, diffs against the known files and
either walks the per-file transfer loop (committing and persisting the
share's record after each successful transfer) or refreshes the record
with no transfer.  Wall-clock reads during one tick are abstracted to a
single instant `t`; whether the transfer of a given file succeeds is an
oracle `succeeds`. -/

/-- Secret resolution in `_monitor_share_link`:
`final_pwd = user_password if user_password else link_pwd`. -/
def resolve_final_pwd (user_password link_pwd : Option String) : Option String :=
  if truthy user_password then user_password else link_pwd

/-- Secret resolution inside `ShareHandler.get_file_list`, which receives
both passwords and resolves them itself with
`final_pwd = user_password if user_password else link_pwd`. -/
def get_file_list_pwd (user_password link_pwd : Option String) : Option String :=
  if truthy user_password then user_password else link_pwd

/-- `Cloud123Monitor._generate_share_key`:
`f"{share_id}_{share_pwd or 'no_pwd'}"`. -/
def generate_share_key (share_id : String) (share_pwd : Option String) : String :=
  share_id ++ "_" ++ (if truthy share_pwd then share_pwd.getD "" else "no_pwd")

/-- C5: the tick's resolved secret — used for transfer and for keying the
state — is the configured per-share secret when truthy, otherwise the
extraction code parsed from the address; the listing call resolves the
same two inputs to the same secret; and the share's state key is
`"{identifier}_{secret}"` with `no_pwd` substituted when the resolved
secret is absent (None or empty). -/
theorem share_secret_resolution (user_password link_pwd : Option String)
    (share_id : String) :
    get_file_list_pwd user_password link_pwd =
      resolve_final_pwd user_password link_pwd ∧
    (truthy user_password = true →
      resolve_final_pwd user_password link_pwd = user_password) ∧
    (truthy user_password = false →
      resolve_final_pwd user_password link_pwd = link_pwd) ∧
    (∀ s, resolve_final_pwd user_password link_pwd = some s → s ≠ "" →
      generate_share_key share_id (resolve_final_pwd user_password link_pwd) =
        share_id ++ "_" ++ s) ∧
    ((resolve_final_pwd user_password link_pwd = none ∨
        resolve_final_pwd user_password link_pwd = some "") →
      generate_share_key share_id (resolve_final_pwd user_password link_pwd) =
        share_id ++ "_" ++ "no_pwd") := by
  refine ⟨rfl, ?_, ?_, ?_, ?_⟩
  · intro h
    simp [resolve_final_pwd, h]
  · intro h
    simp [resolve_final_pwd, h]
  · intro s hres hs
    rw [generate_share_key, hres]
    have hie : s.isEmpty = false := by
      rw [Bool.eq_false_iff]
      intro hh
      exact hs ((String.isEmpty_iff s).mp hh)
    have ht : truthy (some s) = true := by
      simp [truthy, hie]
    simp [ht]
  · intro hres
    rw [generate_share_key]
    rcases hres with h | h <;> rw [h] <;> rfl

/-- Witness for C5 at concrete secrets: the configured secret `"x"`
overrides the link code `"y"` and yields the key `"abc_x"`. -/
theorem share_secret_resolution_witness :
    generate_share_key "abc" (resolve_final_pwd (some "x") (some "y")) =
      "abc" ++ "_" ++ "x" :=
  (share_secret_resolution (some "x") (some "y") "abc").2.2.2.1 "x" rfl
    (by decide)

/-- The per-share record stored in `monitor_state[share_key]`; the
`last_sync_time` key may be absent. -/
structure ShareState where
  last_monitor_time : Nat
  last_sync_time : Option Nat
  files : List FileInfo
  last_synced_files_count : Nat
deriving DecidableEq, Repr

/-- Python `dict` assignment `m[k] = v` on a dict kept as an
insertion-ordered association list: an existing key keeps its position
and gets the new value, a new key is appended. -/
def dict_update {α : Type} (m : List (String × α)) (k : String) (v : α) :
    List (String × α) :=
  if m.any (fun kv => kv.1 == k) then
    m.map (fun kv => if kv.1 == k then (k, v) else kv)
  else m ++ [(k, v)]

/-- The dict comprehension
`{f.get('path', ''): f for f in files}` seeding `current_file_map`. -/
def file_map_of (files : List FileInfo) : List (String × FileInfo) :=
  files.foldl (fun m f => dict_update m f.pathD f) []

/-- The `for file_info in updated_files` loop of `_monitor_share_link`:
on each successful transfer, stamp `synced_at`, update
`current_file_map`, rebuild the file list from the map's values and
immediately persist the share's record (`last_monitor_time` and
`last_sync_time` set to the tick instant, `last_synced_files_count` the
running success counter); on a failed transfer, log and continue.  The
returned list is the sequence of persisted records, in commit order. -/
def process_updated (t : Nat) (succeeds : FileInfo → Bool) :
    List (String × FileInfo) → Nat → List FileInfo → List ShareState
  | _, _, [] => []
  | m, cnt, f :: rest =>
    if succeeds f then
      let m' := dict_update m f.pathD { f with synced_at := some t }
      { last_monitor_time := t, last_sync_time := some t,
        files := m'.map Prod.snd, last_synced_files_count := cnt + 1 } ::
        process_updated t succeeds m' (cnt + 1) rest
    else process_updated t succeeds m cnt rest

/-- Observable trace of one per-share tick: the records persisted for the
share's key, in order, and the record standing at tick end (the last
persisted one, or the pre-tick record when nothing was persisted — a
delta whose every transfer failed writes nothing). -/
structure TickTrace where
  persisted : List ShareState
  final : Option ShareState
deriving DecidableEq, Repr

/-- The state-affecting body of `_monitor_share_link` for one share,
after listing: diff the listed files against the known record; with a
non-empty delta run the per-file transfer loop, otherwise rewrite the
record keeping `files`, preserving `last_sync_time` exactly when
present, refreshing `last_monitor_time` and resetting the counter to
zero. -/
def monitor_share_tick (old : Option ShareState) (file_list : List FileInfo)
    (succeeds : FileInfo → Bool) (t : Nat) : TickTrace :=
  let old_files := (old.map ShareState.files).getD []
  let updated := get_files_to_sync file_list old_files
  if updated.isEmpty then
    let st : ShareState :=
      { last_monitor_time := t,
        last_sync_time := old.bind ShareState.last_sync_time,
        files := old_files, last_synced_files_count := 0 }
    { persisted := [st], final := some st }
  else
    let snaps := process_updated t succeeds (file_map_of old_files) 0 updated
    { persisted := snaps,
      final :=
        match snaps.getLast? with
        | some s => some s
        | none => old }

/-- Crash model for C3: the records the tick has persisted if it is
interrupted after attempting only the first `j` files of the delta. -/
def monitor_share_tick_upto (old : Option ShareState)
    (file_list : List FileInfo) (succeeds : FileInfo → Bool) (t : Nat)
    (j : Nat) : List ShareState :=
  let old_files := (old.map ShareState.files).getD []
  let updated := get_files_to_sync file_list old_files
  process_updated t succeeds (file_map_of old_files) 0 (updated.take j)

theorem process_updated_length (t : Nat) (succeeds : FileInfo → Bool) :
    ∀ (l : List FileInfo) (m : List (String × FileInfo)) (cnt : Nat),
      (process_updated t succeeds m cnt l).length = (l.filter succeeds).length := by
  intro l
  induction l with
  | nil => intro m cnt; simp [process_updated]
  | cons f rest ih =>
    intro m cnt
    cases h : succeeds f with
    | true => simp [process_updated, h, List.filter_cons, ih]
    | false => simp [process_updated, h, List.filter_cons, ih]

theorem process_updated_append (t : Nat) (succeeds : FileInfo → Bool) :
    ∀ (l1 l2 : List FileInfo) (m : List (String × FileInfo)) (cnt : Nat),
      ∃ m' cnt',
        process_updated t succeeds m cnt (l1 ++ l2) =
          process_updated t succeeds m cnt l1 ++
            process_updated t succeeds m' cnt' l2 := by
  intro l1
  induction l1 with
  | nil => intro l2 m cnt; exact ⟨m, cnt, by simp [process_updated]⟩
  | cons f rest ih =>
    intro l2 m cnt
    cases h : succeeds f with
    | true =>
      rcases ih l2 (dict_update m f.pathD { f with synced_at := some t })
        (cnt + 1) with ⟨m', cnt', heq⟩
      exact ⟨m', cnt', by simp [process_updated, h, heq]⟩
    | false =>
      rcases ih l2 m cnt with ⟨m', cnt', heq⟩
      exact ⟨m', cnt', by simp [process_updated, h, heq]⟩

theorem process_updated_take (t : Nat) (succeeds : FileInfo → Bool)
    (l : List FileInfo) (m : List (String × FileInfo)) (cnt : Nat) (j : Nat) :
    process_updated t succeeds m cnt (l.take j) =
      (process_updated t succeeds m cnt l).take
        (((l.take j).filter succeeds).length) := by
  rcases process_updated_append t succeeds (l.take j) (l.drop j) m cnt with
    ⟨m', cnt', heq⟩
  rw [List.take_append_drop] at heq
  rw [heq, ← process_updated_length t succeeds (l.take j) m cnt,
    List.take_left]

theorem dict_update_self_mem {α : Type} (m : List (String × α)) (k : String)
    (v : α) : v ∈ (dict_update m k v).map Prod.snd := by
  unfold dict_update
  by_cases h : m.any (fun kv => kv.1 == k) = true
  · rw [if_pos h]
    rcases List.any_eq_true.mp h with ⟨kv, hkv, hk⟩
    have h2 := List.mem_map_of_mem (fun kv => if kv.1 == k then (k, v) else kv) hkv
    simp only [hk, if_true] at h2
    exact List.mem_map_of_mem Prod.snd h2
  · rw [if_neg h]
    simp

theorem process_updated_get (t : Nat) (succeeds : FileInfo → Bool) :
    ∀ (l : List FileInfo) (m : List (String × FileInfo)) (cnt k : Nat)
      (f : FileInfo), (l.filter succeeds)[k]? = some f →
      ∃ st, (process_updated t succeeds m cnt l)[k]? = some st ∧
        ({ f with synced_at := some t } : FileInfo) ∈ st.files ∧
        st.last_sync_time = some t ∧
        st.last_synced_files_count = cnt + k + 1 := by
  intro l
  induction l with
  | nil => intro m cnt k f h; simp at h
  | cons g rest ih =>
    intro m cnt k f h
    cases hs : succeeds g with
    | false =>
      rw [List.filter_cons, if_neg (by simp [hs])] at h
      rcases ih m cnt k f h with ⟨st, h1, h2, h3, h4⟩
      exact ⟨st, by simpa [process_updated, hs] using h1, h2, h3, h4⟩
    | true =>
      rw [List.filter_cons, if_pos (by simp [hs])] at h
      cases k with
      | zero =>
        have hf : g = f := by simpa using h
        subst hf
        exact ⟨⟨t, some t,
          (dict_update m g.pathD { g with synced_at := some t }).map Prod.snd,
          cnt + 1⟩,
          by simp [process_updated, hs],
          dict_update_self_mem m g.pathD { g with synced_at := some t },
          rfl, rfl⟩
      | succ k =>
        rw [List.getElem?_cons_succ] at h
        rcases ih (dict_update m g.pathD { g with synced_at := some t })
          (cnt + 1) k f h with ⟨st, h1, h2, h3, h4⟩
        refine ⟨st, by simpa [process_updated, hs] using h1, h2, h3, ?_⟩
        omega

theorem monitor_share_tick_delta (old : Option ShareState)
    (file_list : List FileInfo) (succeeds : FileInfo → Bool) (t : Nat)
    (h : get_files_to_sync file_list ((old.map ShareState.files).getD []) ≠ []) :
    (monitor_share_tick old file_list succeeds t).persisted =
      process_updated t succeeds
        (file_map_of ((old.map ShareState.files).getD [])) 0
        (get_files_to_sync file_list ((old.map ShareState.files).getD [])) := by
  unfold monitor_share_tick
  have hne : (get_files_to_sync file_list
      ((old.map ShareState.files).getD [])).isEmpty = false := by
    simp [List.isEmpty_iff, h]
  simp [hne]

/-- Two distinct fresh files used for the concrete 2-file delta of C3. -/
def tickFile1 : FileInfo :=
  { file_id := "f1", name := "n1", path := some "a", md5 := some "m1",
    type := some 0, synced_at := none }

/-- Second file of the concrete 2-file delta of C3. -/
def tickFile2 : FileInfo :=
  { file_id := "f2", name := "n2", path := some "b", md5 := some "m2",
    type := some 0, synced_at := none }

/-- C3: during a per-share tick with a non-empty delta, the tick persists
the share's record immediately after each single successful transfer —
interrupting the tick after the first `j` files leaves exactly the prefix
of commits on disk; each commit carries the transferred file stamped with
`syncedAt`, sets `lastSyncTime` and counts the successes so far; a failed
transfer persists nothing and the loop continues with the remaining
files; and on a 2-file delta interrupted between the commits of file 1
and file 2, the persisted state holds file 1 (stamped) and not file 2. -/
theorem monitor_tick_per_file_commit (old : Option ShareState)
    (file_list : List FileInfo) (succeeds : FileInfo → Bool) (t : Nat) :
    (∀ j, monitor_share_tick_upto old file_list succeeds t j =
      (monitor_share_tick old file_list succeeds t).persisted.take
        ((((get_files_to_sync file_list
            ((old.map ShareState.files).getD [])).take j).filter
          succeeds).length)) ∧
    (get_files_to_sync file_list ((old.map ShareState.files).getD []) ≠ [] →
      (monitor_share_tick old file_list succeeds t).persisted.length =
        ((get_files_to_sync file_list
          ((old.map ShareState.files).getD [])).filter succeeds).length ∧
      (∀ k f,
        ((get_files_to_sync file_list
          ((old.map ShareState.files).getD [])).filter succeeds)[k]? = some f →
        ∃ st, (monitor_share_tick old file_list succeeds t).persisted[k]? =
            some st ∧
          ({ f with synced_at := some t } : FileInfo) ∈ st.files ∧
          st.last_sync_time = some t ∧
          st.last_synced_files_count = k + 1)) ∧
    (∀ (m : List (String × FileInfo)) (cnt : Nat) (f : FileInfo)
      (rest : List FileInfo), succeeds f = false →
      process_updated t succeeds m cnt (f :: rest) =
        process_updated t succeeds m cnt rest) ∧
    (monitor_share_tick_upto none [tickFile1, tickFile2]
        (fun _ => true) t 1 =
      [{ last_monitor_time := t, last_sync_time := some t,
         files := [{ tickFile1 with synced_at := some t }],
         last_synced_files_count := 1 }]) := by
  refine ⟨?_, ?_, ?_, ?_⟩
  · intro j
    by_cases h : get_files_to_sync file_list
        ((old.map ShareState.files).getD []) = []
    · unfold monitor_share_tick_upto monitor_share_tick
      simp [h, process_updated]
    · rw [monitor_share_tick_delta old file_list succeeds t h]
      unfold monitor_share_tick_upto
      exact process_updated_take t succeeds _ _ 0 j
  · intro h
    rw [monitor_share_tick_delta old file_list succeeds t h]
    constructor
    · exact process_updated_length t succeeds _ _ 0
    · intro k f hk
      have := process_updated_get t succeeds _
        (file_map_of ((old.map ShareState.files).getD [])) 0 k f hk
      simpa using this
  · intro m cnt f rest hf
    simp [process_updated, hf]
  · rfl

/-- Witness for C3: the concrete 2-file delta with both transfers
succeeding persists exactly two records. -/
theorem monitor_tick_per_file_commit_witness :
    (monitor_share_tick none [tickFile1, tickFile2]
      (fun _ => true) 7).persisted.length = 2 := by
  have h := ((monitor_tick_per_file_commit none [tickFile1, tickFile2]
    (fun _ => true) 7).2.1 (by decide)).1
  rw [h]
  decide

/-- Pre-tick record used to refute C4: a record with a non-zero
`last_synced_files_count` left by an earlier delta tick. -/
def staleShareState : ShareState :=
  { last_monitor_time := 5, last_sync_time := some 4, files := [],
    last_synced_files_count := 3 }

/-- C4 counterexample: a no-delta tick over a record whose
`last_synced_files_count` is 3 does not produce the record the claim
predicts (the old record with only `lastMonitorTime` refreshed) — the
code also resets `last_synced_files_count` to 0. -/
theorem monitor_tick_no_delta_changes_count :
    (monitor_share_tick (some staleShareState) [] (fun _ => true) 9).final ≠
      some { staleShareState with last_monitor_time := 9 } := by
  decide

/-- C4 amended: a per-share tick whose diff yields no files to transfer
rewrites the share's record changing only `lastMonitorTime` (set to the
tick instant) and `lastSyncedFileCount` (reset to 0): `knownFiles` is
unchanged and `lastSyncTime` is preserved exactly when present and not
introduced when absent; the rewritten record is persisted once. -/
theorem monitor_share_tick_no_delta (old : Option ShareState)
    (file_list : List FileInfo) (succeeds : FileInfo → Bool) (t : Nat)
    (h : get_files_to_sync file_list
      ((old.map ShareState.files).getD []) = []) :
    monitor_share_tick old file_list succeeds t =
      { persisted := [{ last_monitor_time := t,
                        last_sync_time := old.bind ShareState.last_sync_time,
                        files := (old.map ShareState.files).getD [],
                        last_synced_files_count := 0 }],
        final := some { last_monitor_time := t,
                        last_sync_time := old.bind ShareState.last_sync_time,
                        files := (old.map ShareState.files).getD [],
                        last_synced_files_count := 0 } } := by
  unfold monitor_share_tick
  simp [h]

/-- Witness for the amended C4 at a concrete pre-tick record. -/
theorem monitor_share_tick_no_delta_witness :
    monitor_share_tick (some staleShareState) [] (fun _ => true) 9 =
      { persisted := [{ last_monitor_time := 9, last_sync_time := some 4,
                        files := [], last_synced_files_count := 0 }],
        final := some { last_monitor_time := 9, last_sync_time := some 4,
                        files := [], last_synced_files_count := 0 } } := by
  have h := monitor_share_tick_no_delta (some staleShareState) []
    (fun _ => true) 9 (by decide)
  rw [h]
  rfl

/-! ### TaskScheduler (src/scheduler/task_scheduler.py)

The scheduler keeps `self.jobs`, a list of per-task records.  The
callable and its bound keyword arguments are abstracted to opaque `Nat`
tokens; the `schedule` library's `every(n).seconds.do(...)` sets the
fresh job's next fire time to `now + n`, recorded in `next_run`. -/

structure JobInfo where
  id : String
  func : Nat
  interval : Nat
  kwargs : Nat
  next_run : Nat
deriving DecidableEq, Repr

/-- `TaskScheduler.add_interval_task` with an explicit `task_id`: append
the job record; the fresh schedule entry first fires `interval_seconds`
after registration. -/
def add_interval_task (jobs : List JobInfo) (func : Nat)
    (interval_seconds : Nat) (task_id : String) (kwargs : Nat)
    (now : Nat) : List JobInfo :=
  jobs ++ [{ id := task_id, func := func, interval := interval_seconds,
             kwargs := kwargs, next_run := now + interval_seconds }]

/-- `TaskScheduler.remove_job`: scan for the first job whose id matches,
pop it and report true; report false leaving the list unchanged when no
job matches. -/
def remove_job : List JobInfo → String → List JobInfo × Bool
  | [], _ => ([], false)
  | j :: rest, task_id =>
    if j.id = task_id then (rest, true)
    else
      let r := remove_job rest task_id
      (j :: r.1, r.2)

/-- `TaskScheduler.update_task_interval`: look the task up; when absent
report false; when present keep its callable and bound parameters,
remove the old entry and register a fresh one with the new interval
under the same id. -/
def update_task_interval (jobs : List JobInfo) (task_id : String)
    (new_interval_seconds : Nat) (now : Nat) : List JobInfo × Bool :=
  match jobs.find? (fun j => j.id == task_id) with
  | none => (jobs, false)
  | some job =>
    (add_interval_task (remove_job jobs task_id).1 job.func
      new_interval_seconds task_id job.kwargs now, true)

theorem remove_job_of_find (jobs : List JobInfo) (task_id : String)
    (job : JobInfo) (h : jobs.find? (fun j => j.id == task_id) = some job) :
    (remove_job jobs task_id).2 = true ∧
    (remove_job jobs task_id).1.length + 1 = jobs.length := by
  induction jobs with
  | nil => simp at h
  | cons j rest ih =>
    by_cases hj : j.id = task_id
    · simp [remove_job, hj]
    · have hb : (j.id == task_id) = false := by simp [hj]
      rw [List.find?_cons, hb] at h
      rcases ih h with ⟨h1, h2⟩
      simp only [remove_job, if_neg hj]
      exact ⟨h1, by simpa using congrArg Nat.succ h2⟩

/-- C6: when a job with `taskId` exists, `updateInterval` removes the
old entry and appends a fresh one under the same id with the new
interval, the same callable and the same bound parameters, whose next
fire time is `now + newInterval`; it reports true and the number of
registered entries is unchanged.  When no such job exists it reports
false and leaves the job list unchanged. -/
theorem update_task_interval_spec (jobs : List JobInfo) (task_id : String)
    (new_interval : Nat) (now : Nat) :
    (∀ job, jobs.find? (fun j => j.id == task_id) = some job →
      update_task_interval jobs task_id new_interval now =
        ((remove_job jobs task_id).1 ++
          [{ id := task_id, func := job.func, interval := new_interval,
             kwargs := job.kwargs, next_run := now + new_interval }],
         true) ∧
      (update_task_interval jobs task_id new_interval now).1.length =
        jobs.length) ∧
    (jobs.find? (fun j => j.id == task_id) = none →
      update_task_interval jobs task_id new_interval now = (jobs, false)) := by
  constructor
  · intro job h
    have heq : update_task_interval jobs task_id new_interval now =
        ((remove_job jobs task_id).1 ++
          [{ id := task_id, func := job.func, interval := new_interval,
             kwargs := job.kwargs, next_run := now + new_interval }],
         true) := by
      unfold update_task_interval
      rw [h]
      rfl
    refine ⟨heq, ?_⟩
    rw [heq]
    have := (remove_job_of_find jobs task_id job h).2
    simp only [List.length_append, List.length_cons, List.length_nil]
    omega
  · intro h
    unfold update_task_interval
    rw [h]

/-- Concrete job list entry for the C6 witness. -/
def jobA : JobInfo :=
  { id := "a", func := 1, interval := 60, kwargs := 0, next_run := 10 }

/-- Second concrete job list entry for the C6 witness. -/
def jobB : JobInfo :=
  { id := "b", func := 2, interval := 30, kwargs := 5, next_run := 12 }

/-- Witness for C6: updating task `"a"` to a 120-second interval at
instant 50 keeps both entries, carries callable and parameters over and
restarts the next fire time at 170. -/
theorem update_task_interval_spec_witness :
    update_task_interval [jobA, jobB] "a" 120 50 =
      ([jobB, { id := "a", func := 1, interval := 120, kwargs := 0,
                next_run := 170 }], true) := by
  have h := ((update_task_interval_spec [jobA, jobB] "a" 120 50).1 jobA
    (by decide)).1
  rw [h]
  decide

/-! ### TaskMonitor (src/scheduler/monitor.py)

`self.task_status` is a dict keyed by task id, `self.task_history` the
capped execution log.  Timestamps are abstract `Nat` instants; the
free-form `details` payload is a string-keyed dict. -/

structure TaskRecord where
  task_id : String
  task_name : String
  status : String
  start_time : Nat
  end_time : Option Nat
  duration : Option Nat
  success : Option Bool
  error : Option String
  details : List (String × String)
deriving DecidableEq, Repr

/-- Python `d.update(other)`: assign every key of `other` into `d` in
order. -/
def dict_merge {α : Type} (m upd : List (String × α)) :
    List (String × α) :=
  upd.foldl (fun acc kv => dict_update acc kv.1 kv.2) m

structure TaskMonitor where
  task_history : List TaskRecord
  task_status : List (String × TaskRecord)
deriving DecidableEq, Repr

/-- The monitor as constructed: no history, no statuses. -/
def TaskMonitor.empty : TaskMonitor :=
  { task_history := [], task_status := [] }

/-- `TaskMonitor.start_task`: write a fresh running record into the
status table. -/
def start_task (m : TaskMonitor) (task_id task_name : String)
    (t : Nat) : TaskMonitor :=
  { m with
    task_status := dict_update m.task_status task_id
      { task_id := task_id, task_name := task_name, status := "running",
        start_time := t, end_time := none, duration := none,
        success := none, error := none, details := [] } }

/-- `TaskMonitor.complete_task`: when the id is known, finalize the
status record, append a copy to the history and pop the oldest history
entry when the log exceeds 1000 records; unknown ids are ignored. -/
def complete_task (m : TaskMonitor) (task_id : String) (success : Bool)
    (error : Option String) (details : Option (List (String × String)))
    (t : Nat) : TaskMonitor :=
  match m.task_status.lookup task_id with
  | none => m
  | some task_info =>
    let updated : TaskRecord :=
      { task_info with
        status := "completed", end_time := some t,
        duration := some (t - task_info.start_time),
        success := some success, error := error,
        details :=
          match details with
          | some d =>
            if d.isEmpty then task_info.details
            else dict_merge task_info.details d
          | none => task_info.details }
    let hist := m.task_history ++ [updated]
    { task_status := dict_update m.task_status task_id updated,
      task_history := if hist.length > 1000 then hist.drop 1 else hist }

/-- `TaskMonitor.get_recent_history`: Python's `history[-limit:]` — the
whole list at `limit = 0`, otherwise the last `limit` entries. -/
def get_recent_history (m : TaskMonitor) (limit : Nat) : List TaskRecord :=
  if limit = 0 then m.task_history
  else m.task_history.drop (m.task_history.length - limit)

/-- One mutating call against the Task Monitor. -/
inductive MonitorOp
  | start_op (task_id task_name : String) (t : Nat)
  | complete_op (task_id : String) (success : Bool) (error : Option String)
      (details : Option (List (String × String))) (t : Nat)

/-- Replay a sequence of mutating calls. -/
def run_ops : TaskMonitor → List MonitorOp → TaskMonitor
  | m, [] => m
  | m, MonitorOp.start_op a b t :: rest => run_ops (start_task m a b t) rest
  | m, MonitorOp.complete_op a s e d t :: rest =>
    run_ops (complete_task m a s e d t) rest

theorem complete_task_history_le (m : TaskMonitor) (task_id : String)
    (success : Bool) (error : Option String)
    (details : Option (List (String × String))) (t : Nat)
    (h : m.task_history.length ≤ 1000) :
    (complete_task m task_id success error details t).task_history.length ≤
      1000 := by
  unfold complete_task
  cases hl : m.task_status.lookup task_id with
  | none => simpa using h
  | some task_info =>
    simp only []
    split
    · simp only [List.length_drop, List.length_append, List.length_cons,
        List.length_nil]
      omega
    · rename_i hcond
      simp only [gt_iff_lt, not_lt, List.length_append, List.length_cons,
        List.length_nil] at hcond
      simp only [List.length_append, List.length_cons, List.length_nil]
      omega

theorem run_ops_history_le :
    ∀ (ops : List MonitorOp) (m : TaskMonitor),
      m.task_history.length ≤ 1000 →
      (run_ops m ops).task_history.length ≤ 1000 := by
  intro ops
  induction ops with
  | nil => intro m h; simpa [run_ops] using h
  | cons op rest ih =>
    intro m h
    cases op with
    | start_op a b t =>
      exact ih (start_task m a b t) (by simpa [start_task] using h)
    | complete_op a s e d t =>
      exact ih (complete_task m a s e d t)
        (complete_task_history_le m a s e d t h)

theorem complete_task_evicts_oldest (m : TaskMonitor) (task_id : String)
    (success : Bool) (error : Option String)
    (details : Option (List (String × String))) (t : Nat)
    (hfull : m.task_history.length = 1000)
    (hid : (m.task_status.lookup task_id).isSome = true) :
    ∃ r, (complete_task m task_id success error details t).task_history =
      m.task_history.drop 1 ++ [r] := by
  unfold complete_task
  cases hl : m.task_status.lookup task_id with
  | none => rw [hl] at hid; simp at hid
  | some task_info =>
    have hlen : ∀ r : TaskRecord, (m.task_history ++ [r]).length > 1000 := by
      intro r
      simp [hfull]
    refine ⟨{ task_info with
              status := "completed", end_time := some t,
              duration := some (t - task_info.start_time),
              success := some success, error := error,
              details :=
                match details with
                | some d =>
                  if d.isEmpty then task_info.details
                  else dict_merge task_info.details d
                | none => task_info.details }, ?_⟩
    simp only []
    rw [if_pos (hlen _), List.drop_append_of_le_length (by omega)]

theorem get_recent_history_pos (m : TaskMonitor) (limit : Nat)
    (h : 1 ≤ limit) :
    get_recent_history m limit =
      (m.task_history.reverse.take limit).reverse := by
  unfold get_recent_history
  rw [if_neg (by omega)]
  rw [List.reverse_take]
  simp

/-- C7 amended: after any sequence of start/complete operations from a
fresh monitor the execution history holds at most 1000 records, and
completing a known task on a full history evicts exactly the oldest
record while appending the new one; `recentHistory(limit)` returns the
most recent `min(limit, length)` records in chronological order for
every `limit ≥ 1`, but at `limit = 0` it returns the entire history
rather than no records. -/
theorem task_monitor_history_spec :
    (∀ ops : List MonitorOp,
      (run_ops TaskMonitor.empty ops).task_history.length ≤ 1000) ∧
    (∀ (m : TaskMonitor) (task_id : String) (success : Bool)
      (error : Option String) (details : Option (List (String × String)))
      (t : Nat), m.task_history.length = 1000 →
      (m.task_status.lookup task_id).isSome = true →
      ∃ r, (complete_task m task_id success error details t).task_history =
        m.task_history.drop 1 ++ [r]) ∧
    (∀ (m : TaskMonitor) (limit : Nat), 1 ≤ limit →
      get_recent_history m limit =
        (m.task_history.reverse.take limit).reverse) ∧
    (∀ m : TaskMonitor, get_recent_history m 0 = m.task_history) :=
  ⟨fun ops =>
    run_ops_history_le ops TaskMonitor.empty (by simp [TaskMonitor.empty]),
   fun m task_id success error details t hfull hid =>
    complete_task_evicts_oldest m task_id success error details t hfull hid,
   fun m limit h => get_recent_history_pos m limit h,
   fun _ => rfl⟩

/-- Monitor holding exactly one completed record, used against the C7
reading of `recentHistory`. -/
def oneRecordMonitor : TaskMonitor :=
  complete_task (start_task TaskMonitor.empty "a" "job-a" 1) "a" true
    none none 2

/-- C7 counterexample: `recentHistory(0)` on a monitor holding one
record does not return the most recent zero records — Python's
`history[-0:]` slice is the whole list, so one record comes back. -/
theorem get_recent_history_zero_not_nil :
    get_recent_history oneRecordMonitor 0 ≠ [] := by
  decide

/-- Witness for the amended C7: `recentHistory(1)` on the one-record
monitor returns that whole one-record history. -/
theorem task_monitor_history_spec_witness :
    get_recent_history oneRecordMonitor 1 =
      oneRecordMonitor.task_history := by
  have h := task_monitor_history_spec.2.2.1 oneRecordMonitor 1 (by omega)
  rw [h]
  decide
